import Mathlib

/-!
Shallow embedding of the eCFR analysis backend (`backend/analyzer.py`).

Python strings are modelled as Lean `String` (ASCII fragment of the
whitespace/uppercase conventions), Python dicts as insertion-ordered
association lists on which assignment replaces the value of an existing
key in place and otherwise appends, and the external collaborators
(`os.path.exists` + `fetch_full_title_xml`, i.e. document availability)
as a function `Nat → Option XmlNode` (`none` = the document is locally
absent and the fetch fails).  Floating point complexity scores
(`textstat.flesch_kincaid_grade`) are outside the embedding; no claim
refers to them.
-/

namespace ECFR

/-! ## Python string primitives -/

/-- The whitespace characters recognised by Python `str.split()` / `str.strip()`
(ASCII fragment). -/
def pyIsSpace (c : Char) : Bool :=
  c = ' ' || c = '\t' || c = '\n' || c = '\r' || c = '\x0b' || c = '\x0c'

/-- Python `str.strip()`: remove leading and trailing whitespace. -/
def pyStrip (s : String) : String :=
  String.mk (((s.toList.dropWhile pyIsSpace).reverse.dropWhile pyIsSpace).reverse)

/-- Python `str.upper()` (ASCII fragment), character by character. -/
def pyUpper (s : String) : String :=
  String.mk (s.toList.map Char.toUpper)

/-- Worker for `pySplit`: split a character list on whitespace runs,
maintaining the (reversed) current token. -/
def pySplitAux : List Char → List Char → List String
  | [], cur => if cur.isEmpty then [] else [String.mk cur.reverse]
  | c :: cs, cur =>
    if pyIsSpace c then
      if cur.isEmpty then pySplitAux cs []
      else String.mk cur.reverse :: pySplitAux cs []
    else pySplitAux cs (c :: cur)

/-- Python `str.split()` with no arguments: whitespace runs separate tokens,
empty tokens never occur. -/
def pySplit (s : String) : List String :=
  pySplitAux s.toList []

/-- Python `" ".join(blocks)`. -/
def joinWithSpace : List String → String
  | [] => ""
  | [b] => b
  | b :: bs => b ++ " " ++ joinWithSpace bs

/-! ## Python dict as insertion-ordered association list -/

/-- Python `d[k]` lookup (first entry with the key; keys built through
`dictInsert` are unique). -/
def dictLookup {α : Type} (d : List (String × α)) (k : String) : Option α :=
  (d.find? (fun kv => kv.1 = k)).map Prod.snd

/-- Python `k in d`. -/
def dictContains {α : Type} (d : List (String × α)) (k : String) : Bool :=
  d.any (fun kv => kv.1 = k)

/-- Python `d[k] = v`: replace the value of an existing key in place,
otherwise append the new pair at the end. -/
def dictInsert {α : Type} (d : List (String × α)) (k : String) (v : α) :
    List (String × α) :=
  if dictContains d k then
    d.map (fun kv => if kv.1 = k then (k, v) else kv)
  else
    d ++ [(k, v)]

/-! ## XML documents (`xml.etree.ElementTree` fragment used by the code) -/

/-- An ElementTree element: tag, attributes, optional text, children.
The code never reads `tail` text, so it is not modelled. -/
inductive XmlNode where
  | node (tag : String) (attrs : List (String × String)) (text : Option String)
      (children : List XmlNode)

mutual

/-- `elem.iter()`: the element followed by all descendants, document order. -/
def XmlNode.iterNodes : XmlNode → List XmlNode
  | .node t a x c => .node t a x c :: iterForest c

/-- `iter()` over a forest of sibling subtrees. -/
def iterForest : List XmlNode → List XmlNode
  | [] => []
  | n :: ns => n.iterNodes ++ iterForest ns

end

def XmlNode.tag : XmlNode → String
  | .node t _ _ _ => t

def XmlNode.attrs : XmlNode → List (String × String)
  | .node _ a _ _ => a

def XmlNode.text : XmlNode → Option String
  | .node _ _ x _ => x

def XmlNode.children : XmlNode → List XmlNode
  | .node _ _ _ c => c

/-- `elem.attrib.get(key, "")`. -/
def XmlNode.attrD (n : XmlNode) (key : String) : String :=
  (dictLookup n.attrs key).getD ""

/-- `root.findall(".//DIV3[@TYPE='CHAPTER']")`: all strict descendants with
tag `DIV3` and attribute `TYPE` equal to `CHAPTER`, in document order. -/
def chaptersOf (root : XmlNode) : List XmlNode :=
  (iterForest root.children).filter
    (fun n => n.tag = "DIV3" && dictLookup n.attrs "TYPE" = some "CHAPTER")

/-- `chapter_elem.attrib.get("N", "").upper()`. -/
def chapterCode (ch : XmlNode) : String :=
  pyUpper (ch.attrD "N")

/-- The stripped nonblank text blocks of a list of elements:
`[e.text.strip() for e in elems if e.text and e.text.strip()]`. -/
def textBlocks (elems : List XmlNode) : List String :=
  elems.filterMap (fun e =>
    match e.text with
    | some s => if s = "" || pyStrip s = "" then none else some (pyStrip s)
    | none => none)

/-- Python truthiness of the `target_chapters` argument:
`not target_chapters` is true for `None` and for the empty list. -/
def noFilter : Option (List String) → Bool
  | none => true
  | some l => l.isEmpty

/-- `any(chap and chap.upper() == chapter_number for chap in target_chapters)`
(with `chapter_number` already uppercased). -/
def chapterListed (tcs : List String) (ch : XmlNode) : Bool :=
  tcs.any (fun chap => chap ≠ "" && pyUpper chap = chapterCode ch)

/-- The condition under which a chapter is selected in sectioned mode:
`(not target_chapters) or any(chap and chap.upper() == chapter_number ...)`. -/
def chapterMatches (tcs : Option (List String)) (ch : XmlNode) : Bool :=
  noFilter tcs || chapterListed (tcs.getD []) ch

/-- The flat-mode text of one element subtree: `" ".join` of its stripped
nonblank text blocks in `iter()` order. -/
def subtreeText (e : XmlNode) : String :=
  joinWithSpace (textBlocks e.iterNodes)

/-- `parse_title_xml(file, target_chapters, return_sections=False)`:
with no filter (None or empty list), join every nonblank stripped text of the
whole document; otherwise join the text blocks of the matching
`DIV3[@TYPE='CHAPTER']` subtrees in document order. -/
def parse_title_xml_flat (root : XmlNode) (tcs : Option (List String)) : String :=
  if noFilter tcs then
    joinWithSpace (textBlocks root.iterNodes)
  else
    joinWithSpace (textBlocks (((chaptersOf root).filter
      (chapterListed (tcs.getD []))).flatMap XmlNode.iterNodes))

/-- The heading key of a chapter in sectioned mode:
`heading_elem.text.strip()` when the chapter has a `HEAD` child
(`none` models the `AttributeError` raised when that child carries no text),
else the synthesized `"Chapter <code>"` label. -/
def chapterKey (ch : XmlNode) : Option String :=
  match ch.children.find? (fun c => c.tag = "HEAD") with
  | some h =>
    match h.text with
    | some s => some (pyStrip s)
    | none => none
  | none => some ("Chapter " ++ chapterCode ch)

/-- The sectioned-mode loop over the chapter list: for each matching chapter,
assign `chapter_texts[heading] = " ".join(text_blocks)`; `none` models the
uncaught `AttributeError` on a matching chapter whose `HEAD` has no text. -/
def sectionsLoop (tcs : Option (List String)) :
    List XmlNode → List (String × String) → Option (List (String × String))
  | [], acc => some acc
  | ch :: rest, acc =>
    if chapterMatches tcs ch then
      match chapterKey ch with
      | some k => sectionsLoop tcs rest (dictInsert acc k (subtreeText ch))
      | none => none
    else
      sectionsLoop tcs rest acc

/-- `parse_title_xml(file, target_chapters, return_sections=True)`. -/
def parse_title_xml_sections (root : XmlNode) (tcs : Option (List String)) :
    Option (List (String × String)) :=
  sectionsLoop tcs (chaptersOf root) []

/-- `compute_word_count(text)`: `len(text.split())`. -/
def compute_word_count (text : String) : Nat :=
  (pySplit text).length

/-! ## SHA-256 (`hashlib.sha256(text.encode('utf-8')).hexdigest()`) -/


/-- UTF-8 encoding of one character, as byte values. -/
def utf8Bytes (c : Char) : List Nat :=
  let n := c.toNat
  if n < 0x80 then [n]
  else if n < 0x800 then
    [0xC0 ||| (n >>> 6), 0x80 ||| (n &&& 0x3F)]
  else if n < 0x10000 then
    [0xE0 ||| (n >>> 12), 0x80 ||| ((n >>> 6) &&& 0x3F), 0x80 ||| (n &&& 0x3F)]
  else
    [0xF0 ||| (n >>> 18), 0x80 ||| ((n >>> 12) &&& 0x3F),
     0x80 ||| ((n >>> 6) &&& 0x3F), 0x80 ||| (n &&& 0x3F)]

/-- Python `text.encode('utf-8')` as a list of byte values. -/
def strBytes (s : String) : List Nat :=
  s.toList.flatMap utf8Bytes

/-- The 64 SHA-256 round constants, as decimal naturals. -/
def sha256K : List Nat :=
  [1116352408, 1899447441, 3049323471, 3921009573, 961987163, 1508970993,
   2453635748, 2870763221, 3624381080, 310598401, 607225278, 1426881987,
   1925078388, 2162078206, 2614888103, 3248222580, 3835390401, 4022224774,
   264347078, 604807628, 770255983, 1249150122, 1555081692, 1996064986,
   2554220882, 2821834349, 2952996808, 3210313671, 3336571891, 3584528711,
   113926993, 338241895, 666307205, 773529912, 1294757372, 1396182291,
   1695183700, 1986661051, 2177026350, 2456956037, 2730485921, 2820302411,
   3259730800, 3345764771, 3516065817, 3600352804, 4094571909, 275423344,
   430227734, 506948616, 659060556, 883997877, 958139571, 1322822218,
   1537002063, 1747873779, 1955562222, 2024104815, 2227730452, 2361852424,
   2428436474, 2756734187, 3204031479, 3329325298]

/-- The SHA-256 initial hash state, as decimal naturals. -/
def sha256H0 : List Nat :=
  [1779033703, 3144134277, 1013904242, 2773480762,
   1359893119, 2600822924, 528734635, 1541459225]

/-- Rotate the low 32 bits of a natural right by k positions. -/
def rotr32 (x k : Nat) : Nat :=
  ((x >>> k) ||| (x <<< (32 - k))) % 4294967296

/-- SHA-256 message padding: append `0x80`, zeros to 56 mod 64, and the
64-bit big-endian bit length. -/
def sha256Pad (msg : List Nat) : List Nat :=
  let len := msg.length
  let bitLen := len * 8
  msg ++ [0x80] ++ List.replicate ((119 - len % 64) % 64) 0 ++
    (List.range 8).map (fun i => (bitLen >>> (56 - 8 * i)) % 256)

/-- Split a byte list into chunks of 64, with explicit fuel for structural
recursion. -/
def chunk64 : Nat → List Nat → List (List Nat)
  | 0, _ => []
  | _, [] => []
  | fuel + 1, l => l.take 64 :: chunk64 fuel (l.drop 64)

/-- Big-endian 32-bit words of one 64-byte chunk. -/
def chunkWords (chunk : List Nat) : List Nat :=
  (List.range 16).map (fun i =>
    (chunk.getD (4 * i) 0) <<< 24 ||| (chunk.getD (4 * i + 1) 0) <<< 16 |||
    (chunk.getD (4 * i + 2) 0) <<< 8 ||| chunk.getD (4 * i + 3) 0)

/-- Extend 16 message words to the 64-entry SHA-256 message schedule. -/
def sha256Schedule (ws : List Nat) : List Nat :=
  (List.range 48).foldl (fun acc i =>
    let s0 := rotr32 (acc.getD (i + 1) 0) 7 ^^^ rotr32 (acc.getD (i + 1) 0) 18 ^^^
      (acc.getD (i + 1) 0) >>> 3
    let s1 := rotr32 (acc.getD (i + 14) 0) 17 ^^^ rotr32 (acc.getD (i + 14) 0) 19 ^^^
      (acc.getD (i + 14) 0) >>> 10
    acc ++ [(acc.getD i 0 + s0 + acc.getD (i + 9) 0 + s1) % 4294967296]) ws

/-- One SHA-256 compression round. -/
def sha256Round (st : List Nat) (kw : Nat × Nat) : List Nat :=
  let a := st.getD 0 0
  let b := st.getD 1 0
  let c := st.getD 2 0
  let d := st.getD 3 0
  let e := st.getD 4 0
  let f := st.getD 5 0
  let g := st.getD 6 0
  let h := st.getD 7 0
  let s1 := rotr32 e 6 ^^^ rotr32 e 11 ^^^ rotr32 e 25
  let ch := (e &&& f) ^^^ ((4294967295 - e) &&& g)
  let temp1 := (h + s1 + ch + kw.1 + kw.2) % 4294967296
  let s0 := rotr32 a 2 ^^^ rotr32 a 13 ^^^ rotr32 a 22
  let maj := (a &&& b) ^^^ (a &&& c) ^^^ (b &&& c)
  let temp2 := (s0 + maj) % 4294967296
  [(temp1 + temp2) % 4294967296, a, b, c, (d + temp1) % 4294967296, e, f, g]

/-- Process one 64-byte chunk against the running hash value. -/
def sha256Chunk (hv : List Nat) (chunk : List Nat) : List Nat :=
  let w := sha256Schedule (chunkWords chunk)
  let st := (sha256K.zip w).foldl sha256Round hv
  (hv.zip st).map (fun p => (p.1 + p.2) % 4294967296)

/-- The eight 32-bit hash words of a byte message. -/
def sha256Words (msg : List Nat) : List Nat :=
  let padded := sha256Pad msg
  (chunk64 padded.length padded).foldl sha256Chunk sha256H0

/-- A lowercase hexadecimal digit. -/
def hexDigit (n : Nat) : Char :=
  if n < 10 then Char.ofNat (48 + n) else Char.ofNat (87 + n)

/-- Eight lowercase hex characters of one 32-bit word, most significant first. -/
def wordHex (w : Nat) : List Char :=
  (List.range 8).map (fun i => hexDigit ((w >>> (28 - 4 * i)) % 16))

/-- `hashlib.sha256(bytes).hexdigest()`. -/
def sha256Hex (msg : List Nat) : String :=
  String.mk ((sha256Words msg).flatMap wordHex)

/-- `compute_checksum(text)`: SHA-256 hex digest of the UTF-8 encoding. -/
def compute_checksum (text : String) : String :=
  sha256Hex (strBytes text)

/-! ## Reference metadata feed (`agencies.json`) -/

/-- One entry of an agency record under `"cfr_references"`; either field may be
absent (`None`). -/
structure CfrRef where
  title : Option Nat
  chapter : Option String
deriving DecidableEq, Repr

/-- One agency record of the feed.  The code reads `"name"`,
`"display_name"` and `"cfr_references"`. -/
structure Agency where
  name : String
  display_name : Option String
  cfr_references : List CfrRef
deriving DecidableEq, Repr

/-- The parsed `agencies.json` feed. -/
structure AgenciesData where
  agencies : List Agency
deriving DecidableEq, Repr

/-- `agency.get("display_name") or agency.get("name")`: Python `or` falls back
on a falsy (absent or empty) display name. -/
def resolvedName (a : Agency) : String :=
  match a.display_name with
  | some s => if s = "" then a.name else s
  | none => a.name

/-- `[ref["title"] for ref in agency.get("cfr_references") if "title" in ref]`. -/
def agencyTitles (a : Agency) : List Nat :=
  a.cfr_references.filterMap (fun r => r.title)

/-- The value stored per key by `build_agency_title_map`. -/
structure AgencyInfo where
  titles : List Nat
  name : String
deriving DecidableEq, Repr

/-- The loop of `build_agency_title_map`: for each feed entry with at least one
referenced title, assign `agency_map[name] = {"titles": titles, "name": name}`. -/
def buildMapLoop : List Agency → List (String × AgencyInfo) → List (String × AgencyInfo)
  | [], m => m
  | a :: rest, m =>
    let titles := agencyTitles a
    buildMapLoop rest
      (if titles.isEmpty then m else dictInsert m a.name ⟨titles, a.name⟩)

/-- `build_agency_title_map(agencies_data)`. -/
def build_agency_title_map (d : AgenciesData) : List (String × AgencyInfo) :=
  buildMapLoop d.agencies []

/-- The `relevant_chapters` comprehension of `analyze_agencies` and
`extract_relevant_text_for_agency`: the non-`None` chapter codes of every feed
entry whose `display_name or name` equals the queried id and whose reference
carries the queried title. -/
def relevant_chapters (d : AgenciesData) (agency_id : String) (title_num : Nat) :
    List String :=
  d.agencies.flatMap (fun a =>
    if resolvedName a = agency_id then
      a.cfr_references.filterMap (fun cref =>
        if cref.title = some title_num then cref.chapter else none)
    else [])

/-- The chapter filter actually passed to the parser:
`if not relevant_chapters or any(chap is None for chap in relevant_chapters):
relevant_chapters = None` (the `any` test is vacuous because the comprehension
already dropped `None` chapters). -/
def chapterFilter (d : AgenciesData) (agency_id : String) (title_num : Nat) :
    Option (List String) :=
  let rc := relevant_chapters d agency_id title_num
  if rc.isEmpty then none else some rc

/-! ## `analyze_agencies` -/

/-- The per-agency value of the `analyze_agencies` result dict
(`complexity` is a float from an external library and is not modelled). -/
structure MetricsRecord where
  agency_name : String
  word_count : Nat
  checksum : String
  titles_count : Nat
  titles_analyzed : List Nat
deriving DecidableEq, Repr

/-- The inner loop of `analyze_agencies` over one agency's referenced titles,
carrying `(combined_text, total_word_count, analyzed_titles)`.  A document the
fetch collaborator cannot supply (`docs t = none`) is skipped; a document whose
extracted text strips to nothing is skipped. -/
def analyzeAgencyLoop (d : AgenciesData) (docs : Nat → Option XmlNode)
    (agency_id : String) : List Nat → String × Nat × List Nat → String × Nat × List Nat
  | [], acc => acc
  | title_num :: rest, acc =>
    match docs title_num with
    | none => analyzeAgencyLoop d docs agency_id rest acc
    | some doc =>
      let text := parse_title_xml_flat doc (chapterFilter d agency_id title_num)
      if pyStrip text = "" then
        analyzeAgencyLoop d docs agency_id rest acc
      else
        analyzeAgencyLoop d docs agency_id rest
          (acc.1 ++ " " ++ text, acc.2.1 + compute_word_count text, acc.2.2 ++ [title_num])

/-- The accumulated `(combined_text, total_word_count, analyzed_titles)` of one
agency. -/
def analyzeAgency (d : AgenciesData) (docs : Nat → Option XmlNode)
    (agency_id : String) (info : AgencyInfo) : String × Nat × List Nat :=
  analyzeAgencyLoop d docs agency_id info.titles ("", 0, [])

/-- `if agency_filter and agency_id != agency_filter: continue`
(an absent or empty filter selects everything). -/
def skipByFilter (af : Option String) (agency_id : String) : Bool :=
  match af with
  | some f => f ≠ "" && agency_id ≠ f
  | none => false

/-- The record built for one emitted agency. -/
def mkRecord (info : AgencyInfo) (acc : String × Nat × List Nat) : MetricsRecord :=
  ⟨info.name, acc.2.1, compute_checksum acc.1, acc.2.2.length, acc.2.2⟩

/-- The outer loop of `analyze_agencies` over the entries of the agency map:
skip filtered-out agencies, analyze the rest, and emit a record only when the
combined text does not strip to nothing. -/
def analyzeLoop (d : AgenciesData) (docs : Nat → Option XmlNode) (af : Option String) :
    List (String × AgencyInfo) → List (String × MetricsRecord) →
    List (String × MetricsRecord)
  | [], results => results
  | (agency_id, info) :: rest, results =>
    if skipByFilter af agency_id then
      analyzeLoop d docs af rest results
    else
      let acc := analyzeAgency d docs agency_id info
      if pyStrip acc.1 = "" then
        analyzeLoop d docs af rest results
      else
        analyzeLoop d docs af rest (dictInsert results agency_id (mkRecord info acc))

/-- `analyze_agencies(DATA_FOLDER, date, agency_filter)` at one date, with the
date-specific document store abstracted as `docs`. -/
def analyze_agencies (d : AgenciesData) (docs : Nat → Option XmlNode)
    (af : Option String) : List (String × MetricsRecord) :=
  analyzeLoop d docs af (build_agency_title_map d) []

/-! ## `extract_relevant_text_for_agency` -/

/-- The uncaught Python exceptions the sections endpoint can raise. -/
inductive PyErr where
  | keyError
  | attributeError
deriving DecidableEq, Repr

/-- The loop of `extract_relevant_text_for_agency` over the agency's titles:
missing documents are skipped, sectioned parses feed
`sections[heading] = text` for each nonblank chapter text, and a sectioned
parse crash propagates. -/
def extractLoop (d : AgenciesData) (docs : Nat → Option XmlNode)
    (agency_name : String) :
    List Nat → List (String × String) → Except PyErr (List (String × String))
  | [], sections => .ok sections
  | title_num :: rest, sections =>
    match docs title_num with
    | none => extractLoop d docs agency_name rest sections
    | some doc =>
      match parse_title_xml_sections doc (chapterFilter d agency_name title_num) with
      | none => .error .attributeError
      | some chapter_text =>
        extractLoop d docs agency_name rest
          (chapter_text.foldl (fun s p =>
            if pyStrip p.2 = "" then s else dictInsert s p.1 p.2) sections)

/-- `extract_relevant_text_for_agency(DATA_FOLDER, agency_name, date)`.
The subscript `info = agency_map[agency_name]` raises `KeyError` for an unknown
name; the membership test that follows it in the source is dead code, kept here
as the redundant `dictContains` branch. -/
def extract_relevant_text_for_agency (d : AgenciesData)
    (docs : Nat → Option XmlNode) (agency_name : String) :
    Except PyErr (List (String × String)) :=
  let m := build_agency_title_map d
  match dictLookup m agency_name with
  | none => .error .keyError
  | some info =>
    if ¬ dictContains m agency_name then .ok []
    else extractLoop d docs agency_name info.titles []

/-! ## `analyze_agencies_over_time` -/

/-- The per-date projection stored in the history
(`complexity` not modelled, see above). -/
structure DateMetrics where
  word_count : Nat
  checksum : String
deriving DecidableEq, Repr

/-- The delta attached when exactly two dates are requested
(`complexity_change` not modelled). -/
structure DeltaRec where
  word_count : Int
deriving DecidableEq, Repr

/-- One agency's history: date-keyed records plus the optional delta.  The
Python code stores the delta under the reserved key `"delta"` of the same
dict; it is modelled as a separate field. -/
structure HistoryEntry where
  records : List (String × DateMetrics)
  delta : Option DeltaRec
deriving DecidableEq, Repr

/-- The projection of an `analyze_agencies` record stored in the history. -/
def toDateMetrics (m : MetricsRecord) : DateMetrics :=
  ⟨m.word_count, m.checksum⟩

/-- `if agency not in history: history[agency] = {}` followed by
`history[agency][date] = {...}`. -/
def histInsert (hist : List (String × List (String × DateMetrics)))
    (a date : String) (dm : DateMetrics) :
    List (String × List (String × DateMetrics)) :=
  dictInsert hist a (dictInsert ((dictLookup hist a).getD []) date dm)

/-- The inner loop over one date's `analyze_agencies` items. -/
def insertDateLoop (date : String) :
    List (String × MetricsRecord) → List (String × List (String × DateMetrics)) →
    List (String × List (String × DateMetrics))
  | [], hist => hist
  | (a, m) :: rest, hist => insertDateLoop date rest (histInsert hist a date (toDateMetrics m))

/-- The outer loop of `analyze_agencies_over_time` over the requested dates. -/
def buildHistoryLoop (d : AgenciesData) (docs : String → Nat → Option XmlNode)
    (af : Option String) :
    List String → List (String × List (String × DateMetrics)) →
    List (String × List (String × DateMetrics))
  | [], hist => hist
  | date :: rest, hist =>
    buildHistoryLoop d docs af rest
      (insertDateLoop date (analyze_agencies d (docs date) af) hist)

/-- The per-agency body of the delta pass: when the agency holds a record on
both requested dates, attach `word_count(end) - word_count(start)`. -/
def attachDelta (d1 d2 : String) (recs : List (String × DateMetrics)) :
    HistoryEntry :=
  match dictLookup recs d1, dictLookup recs d2 with
  | some m1, some m2 =>
    ⟨recs, some ⟨(m2.word_count : Int) - (m1.word_count : Int)⟩⟩
  | _, _ => ⟨recs, none⟩

/-- `analyze_agencies_over_time(DATA_FOLDER, dates, agency_filter)`: build the
per-date history, then, exactly when two dates were requested, attach a delta
to every agency holding a record on both. -/
def analyze_agencies_over_time (d : AgenciesData)
    (docs : String → Nat → Option XmlNode) (dates : List String)
    (af : Option String) : List (String × HistoryEntry) :=
  match dates with
  | [d1, d2] =>
    (buildHistoryLoop d docs af dates []).map (fun p => (p.1, attachDelta d1 d2 p.2))
  | _ =>
    (buildHistoryLoop d docs af dates []).map
      (fun p => (p.1, (⟨p.2, none⟩ : HistoryEntry)))

/-! ## Derived views of the analyzer used by the verification -/

/-- The text the analyzer extracts for one (entity, document) pair, when the
document is available: flat-mode parse under the computed chapter filter. -/
def extractedTextAt (d : AgenciesData) (docs : Nat → Option XmlNode)
    (aid : String) (t : Nat) : Option String :=
  (docs t).map (fun doc => parse_title_xml_flat doc (chapterFilter d aid t))

/-- The (document-id, extracted text) pairs that contribute to an entity:
available documents whose extracted text does not strip to nothing, in
document-id iteration order. -/
def contributingPairs (d : AgenciesData) (docs : Nat → Option XmlNode)
    (aid : String) (titles : List Nat) : List (Nat × String) :=
  titles.filterMap (fun t =>
    match extractedTextAt d docs aid t with
    | some s => if pyStrip s = "" then none else some (t, s)
    | none => none)

/-- The contributing document ids, in iteration order. -/
def contributingTitles (d : AgenciesData) (docs : Nat → Option XmlNode)
    (aid : String) (titles : List Nat) : List Nat :=
  (contributingPairs d docs aid titles).map Prod.fst

/-- The contributing extracted texts, in iteration order. -/
def contributingTexts (d : AgenciesData) (docs : Nat → Option XmlNode)
    (aid : String) (titles : List Nat) : List String :=
  (contributingPairs d docs aid titles).map Prod.snd

/-- Each fragment preceded by one space: the shape `combined_text` takes after
the loop `combined_text += " " + text`. -/
def prefixJoin : List String → String
  | [] => ""
  | t :: rest => " " ++ t ++ prefixJoin rest

/-- The `combined_text` accumulated for an entity by `analyze_agencies`
(empty for an entity absent from the agency map). -/
def accumulatedText (d : AgenciesData) (docs : Nat → Option XmlNode)
    (aid : String) : String :=
  match dictLookup (build_agency_title_map d) aid with
  | some info => (analyzeAgency d docs aid info).1
  | none => ""

/-- Spec-side view for the Reference Resolver: every chapter field
(including absent ones, as `none`) the feed associates with the
(entity, document) pair, reading entity association the way the code does
(`display_name or name` equals the queried id). -/
def suppliedChapters (d : AgenciesData) (aid : String) (t : Nat) :
    List (Option String) :=
  d.agencies.flatMap (fun a =>
    if resolvedName a = aid then
      a.cfr_references.filterMap (fun cref =>
        if cref.title = some t then some cref.chapter else none)
    else [])

/-- Spec-side view for the Reference Resolver index: the last feed entry with
the given name that references at least one document. -/
def lastFeedEntry (name : String) : List Agency → Option Agency
  | [] => none
  | a :: rest =>
    match lastFeedEntry name rest with
    | some b => some b
    | none => if a.name = name ∧ ¬ (agencyTitles a).isEmpty then some a else none

/-- The per-(date, agency) record of the history, as the projection of that
date's `analyze_agencies` run. -/
def aRec (d : AgenciesData) (docs : String → Nat → Option XmlNode)
    (af : Option String) (date a : String) : Option DateMetrics :=
  (dictLookup (analyze_agencies d (docs date) af) a).map toDateMetrics

/-- The Chapter Nodes of a document selected by a filter. -/
def matchingChapters (root : XmlNode) (tcs : Option (List String)) : List XmlNode :=
  (chaptersOf root).filter (chapterMatches tcs)

/-! ## Concrete worlds for counterexamples and witnesses -/

/-- A feed with one agency referencing document 1 whole (no chapter scope). -/
def c1D : AgenciesData := ⟨[⟨"A", none, [⟨some 1, none⟩]⟩]⟩

/-- Document 1 holds the single text fragment `a`. -/
def c1Docs : Nat → Option XmlNode :=
  fun t => if t = 1 then some (.node "E" [] (some "a") []) else none

/-- The record `analyze_agencies` emits for agency `A` in the `c1` world. -/
def c1rec : MetricsRecord :=
  (dictLookup (analyze_agencies c1D c1Docs none) "A").getD ⟨"", 0, "", 0, []⟩

/-- A feed pairing agency `A` with document 1 through one reference scoped to
chapter `I` and one reference with an absent chapter field. -/
def c2D : AgenciesData := ⟨[⟨"A", none, [⟨some 1, some "I"⟩, ⟨some 1, none⟩]⟩]⟩

/-- A feed with two entries resolving to the same name `X`, referencing
documents 1 and 2 respectively. -/
def c3D : AgenciesData := ⟨[⟨"X", none, [⟨some 1, none⟩]⟩, ⟨"X", none, [⟨some 2, none⟩]⟩]⟩

/-- A document with two chapters of distinct codes sharing one heading. -/
def c4Doc : XmlNode :=
  .node "ECFR" [] none
    [ .node "DIV3" [("TYPE", "CHAPTER"), ("N", "I")] none
        [ .node "HEAD" [] (some "Shared Heading") [],
          .node "P" [] (some "one") [] ],
      .node "DIV3" [("TYPE", "CHAPTER"), ("N", "II")] none
        [ .node "HEAD" [] (some "Shared Heading") [],
          .node "P" [] (some "two") [] ] ]

/-- A document with a headed chapter and a headless chapter (distinct keys). -/
def c4DocW : XmlNode :=
  .node "ECFR" [] none
    [ .node "DIV3" [("TYPE", "CHAPTER"), ("N", "I")] none
        [ .node "HEAD" [] (some "Chapter I-General") [],
          .node "P" [] (some "one") [] ],
      .node "DIV3" [("TYPE", "CHAPTER"), ("N", "ii")] none
        [ .node "P" [] (some "two") [] ] ]

/-- The sectioned-mode result on the distinct-key document. -/
def c4secs : List (String × String) :=
  (parse_title_xml_sections c4DocW none).getD []

/-- A feed with one agency referencing document 1 whole. -/
def c5D : AgenciesData := ⟨[⟨"A", none, [⟨some 1, none⟩]⟩]⟩

/-- A date-indexed document store: two words at date `d1`, three at `d2`. -/
def c5Docs : String → Nat → Option XmlNode :=
  fun date t =>
    if t = 1 then
      if date = "d1" then some (.node "E" [] (some "a b") [])
      else if date = "d2" then some (.node "E" [] (some "a b c") [])
      else none
    else none

/-- The history entry produced for agency `A` over dates `d1`, `d2`. -/
def c5entry : HistoryEntry :=
  (dictLookup (analyze_agencies_over_time c5D c5Docs ["d1", "d2"] none) "A").getD ⟨[], none⟩

/-- The spec scenario feed: one agency referencing documents 3 and 5. -/
def c6D : AgenciesData := ⟨[⟨"A", none, [⟨some 3, none⟩, ⟨some 5, none⟩]⟩]⟩

/-- Document 3 cannot be fetched; document 5 yields the text `a b c`. -/
def c6Docs : Nat → Option XmlNode :=
  fun t => if t = 5 then some (.node "E" [] (some "a b c") []) else none

/-- The record `analyze_agencies` emits for agency `A` in the scenario world. -/
def c6rec : MetricsRecord :=
  (dictLookup (analyze_agencies c6D c6Docs none) "A").getD ⟨"", 0, "", 0, []⟩

/-- A feed with one agency referencing document 1. -/
def c7D : AgenciesData := ⟨[⟨"A", none, [⟨some 1, none⟩]⟩]⟩

/-- A store in which no document is available on the requested date. -/
def c7Docs : Nat → Option XmlNode := fun _ => none

/-- A feed whose only agency is named `A`; `Ghost` is not in the index. -/
def c9D : AgenciesData := ⟨[⟨"A", none, [⟨some 1, none⟩]⟩]⟩

/-- A store for the `c9` world (never reached for an unknown name). -/
def c9Docs : Nat → Option XmlNode := fun _ => none

/-- A feed whose agency carries a display name differing from its name, with a
reference scoped to chapter `I` of document 40. -/
def c10D : AgenciesData :=
  ⟨[⟨"Environmental Protection Agency", some "EPA", [⟨some 40, some "I"⟩]⟩]⟩

/-- Document 40: chapter `I` holds `alpha`, chapter `II` holds `beta`. -/
def c10Docs : Nat → Option XmlNode :=
  fun t =>
    if t = 40 then
      some (.node "ECFR" [] none
        [ .node "DIV3" [("TYPE", "CHAPTER"), ("N", "I")] (some "alpha") [],
          .node "DIV3" [("TYPE", "CHAPTER"), ("N", "II")] (some "beta") [] ])
    else none

/-! ## Dictionary lemmas -/

theorem dictLookup_nil {α : Type} (k : String) :
    dictLookup ([] : List (String × α)) k = none := rfl

theorem dictContains_iff {α : Type} {d : List (String × α)} {k : String} :
    dictContains d k = true ↔ k ∈ d.map Prod.fst := by
  induction d with
  | nil => simp [dictContains]
  | cons kv rest ih =>
    simp only [dictContains, List.any_cons, Bool.or_eq_true, decide_eq_true_eq,
      List.map_cons, List.mem_cons] at *
    constructor
    · rintro (h | h)
      · exact Or.inl h.symm
      · exact Or.inr (ih.mp h)
    · rintro (h | h)
      · exact Or.inl h.symm
      · exact Or.inr (ih.mpr h)

theorem dictLookup_eq_none_of_not_contains {α : Type} :
    ∀ {d : List (String × α)} {k : String},
      dictContains d k = false → dictLookup d k = none := by
  intro d k h
  induction d with
  | nil => rfl
  | cons kv rest ih =>
    simp only [dictContains, List.any_cons, Bool.or_eq_false_iff] at h
    simp only [dictLookup]
    rw [List.find?_cons_of_neg _ (by simpa using h.1)]
    exact ih (by simpa [dictContains] using h.2)

theorem dictLookup_overwrite_self {α : Type} {k : String} {v : α} :
    ∀ {d : List (String × α)}, dictContains d k = true →
      dictLookup (d.map (fun kv => if kv.1 = k then (k, v) else kv)) k = some v := by
  intro d h
  induction d with
  | nil => simp [dictContains] at h
  | cons kv rest ih =>
    by_cases hk : kv.1 = k
    · simp only [List.map_cons, if_pos hk, dictLookup]
      rw [List.find?_cons_of_pos _ (by simp)]
      rfl
    · simp only [dictContains, List.any_cons, Bool.or_eq_true] at h
      rcases h with h | h

      · exact absurd (by simpa using h) hk
      · simp only [List.map_cons, if_neg hk, dictLookup]
        rw [List.find?_cons_of_neg _ (by simpa using hk)]
        exact ih h

theorem dictLookup_overwrite_ne {α : Type} {k k2 : String} {v : α} (h : k2 ≠ k) :
    ∀ (d : List (String × α)),
      dictLookup (d.map (fun kv => if kv.1 = k then (k, v) else kv)) k2 =
        dictLookup d k2 := by
  intro d
  induction d with
  | nil => rfl
  | cons kv rest ih =>
    by_cases hk : kv.1 = k
    · simp only [List.map_cons, if_pos hk, dictLookup]
      rw [List.find?_cons_of_neg _ (by simpa using (Ne.symm h)),
        List.find?_cons_of_neg _ (by simp only [hk]; simpa using (Ne.symm h))]
      exact ih
    · by_cases hkv : kv.1 = k2
      · simp only [List.map_cons, if_neg hk, dictLookup]
        rw [List.find?_cons_of_pos _ (by simpa using hkv),
          List.find?_cons_of_pos _ (by simpa using hkv)]
      · simp only [List.map_cons, if_neg hk, dictLookup]
        rw [List.find?_cons_of_neg _ (by simpa using hkv),
          List.find?_cons_of_neg _ (by simpa using hkv)]
        exact ih

theorem dictLookup_insert_self {α : Type} (d : List (String × α)) (k : String) (v : α) :
    dictLookup (dictInsert d k v) k = some v := by
  by_cases hc : dictContains d k
  · simp only [dictInsert, if_pos hc]
    exact dictLookup_overwrite_self hc
  · simp only [dictInsert, hc, Bool.false_eq_true, if_false, dictLookup, List.find?_append]
    have h1 : List.find? (fun kv : String × α => kv.1 = k) d = none := by
      rw [List.find?_eq_none]
      intro x hx
      simp only [decide_eq_true_eq]
      intro hxk
      have hcc : dictContains d k = true :=
        dictContains_iff.mpr (hxk ▸ List.mem_map_of_mem Prod.fst hx)
      simp [hcc] at hc
    rw [h1]
    simp [List.find?]

theorem dictLookup_insert_ne {α : Type} (d : List (String × α)) {k k2 : String}
    (v : α) (h : k2 ≠ k) : dictLookup (dictInsert d k v) k2 = dictLookup d k2 := by
  by_cases hc : dictContains d k
  · simp only [dictInsert, if_pos hc]
    exact dictLookup_overwrite_ne h d
  · simp only [dictInsert, hc, Bool.false_eq_true, if_false, dictLookup, List.find?_append]
    have h1 : List.find? (fun kv : String × α => kv.1 = k2) [(k, v)] = none := by
      simp [List.find?, Ne.symm h]
    rw [h1]
    simp

theorem keys_overwrite {α : Type} (d : List (String × α)) (k : String) (v : α) :
    (d.map (fun kv => if kv.1 = k then (k, v) else kv)).map Prod.fst =
      d.map Prod.fst := by
  induction d with
  | nil => rfl
  | cons kv rest ih =>
    by_cases hk : kv.1 = k <;> simp [hk, ih]

theorem keys_dictInsert {α : Type} (d : List (String × α)) (k : String) (v : α) :
    (dictInsert d k v).map Prod.fst =
      if dictContains d k then d.map Prod.fst else d.map Prod.fst ++ [k] := by
  by_cases hc : dictContains d k
  · simp only [dictInsert, if_pos hc, keys_overwrite, if_pos hc]
  · simp [dictInsert, hc]

theorem nodupKeys_dictInsert {α : Type} {d : List (String × α)} (k : String) (v : α)
    (h : (d.map Prod.fst).Nodup) : ((dictInsert d k v).map Prod.fst).Nodup := by
  rw [keys_dictInsert]
  by_cases hc : dictContains d k
  · simpa [hc] using h
  · have hk : k ∉ d.map Prod.fst := fun hmem => by
      rw [← dictContains_iff] at hmem
      simp [hmem] at hc
    simp [hc, List.nodup_append, h, hk]

theorem mem_dictInsert {α : Type} {d : List (String × α)} {k : String} {v : α}
    {p : String × α} (h : p ∈ dictInsert d k v) :
    p = (k, v) ∨ (p ∈ d ∧ p.1 ≠ k) := by
  by_cases hc : dictContains d k
  · simp only [dictInsert, if_pos hc, List.mem_map] at h
    obtain ⟨q, hq, hqe⟩ := h
    by_cases hk : q.1 = k
    · left
      rw [← hqe, if_pos hk]
    · right
      rw [← hqe, if_neg hk]
      exact ⟨hq, hk⟩
  · simp only [dictInsert, hc, Bool.false_eq_true, if_false, List.mem_append,
      List.mem_singleton] at h
    rcases h with h | h
    · by_cases hk : p.1 = k
      · have : dictContains d k = true := by
          rw [dictContains_iff]

          exact hk ▸ List.mem_map_of_mem Prod.fst h
        simp [this] at hc
      · right
        exact ⟨h, hk⟩
    · left
      exact h

theorem length_dictInsert {α : Type} (d : List (String × α)) (k : String) (v : α) :
    (dictInsert d k v).length =
      if dictContains d k then d.length else d.length + 1 := by
  by_cases hc : dictContains d k <;> simp [dictInsert, hc]

theorem dictLookup_map_snd {α β : Type} (f : α → β) (k : String) :
    ∀ (l : List (String × α)),
      dictLookup (l.map (fun p => (p.1, f p.2))) k = (dictLookup l k).map f := by
  intro l
  induction l with
  | nil => rfl
  | cons p rest ih =>
    by_cases hk : p.1 = k
    · simp only [List.map_cons, dictLookup]
      rw [List.find?_cons_of_pos _ (by simpa using hk),
        List.find?_cons_of_pos _ (by simpa using hk)]
      rfl
    · simp only [List.map_cons, dictLookup]
      rw [List.find?_cons_of_neg _ (by simpa using hk),
        List.find?_cons_of_neg _ (by simpa using hk)]
      exact ih

/-! ## Reference Resolver lemmas -/

theorem buildMapLoop_lookup (n : String) :
    ∀ (as : List Agency) (m : List (String × AgencyInfo)),
      dictLookup (buildMapLoop as m) n =
        match lastFeedEntry n as with
        | some a => some ⟨agencyTitles a, a.name⟩
        | none => dictLookup m n := by
  intro as
  induction as with
  | nil => intro m; rfl
  | cons a rest ih =>
    intro m
    simp only [buildMapLoop, lastFeedEntry]
    by_cases ht : (agencyTitles a).isEmpty
    · rw [if_pos ht, ih]
      cases hl : lastFeedEntry n rest with
      | some b => rfl
      | none => simp [ht]
    · rw [if_neg ht, ih]
      cases hl : lastFeedEntry n rest with
      | some b => rfl
      | none =>
        by_cases hn : a.name = n
        · have hcond : a.name = n ∧ ¬ (agencyTitles a).isEmpty = true :=
            ⟨hn, by simpa using ht⟩
          rw [if_pos hcond]
          subst hn
          exact dictLookup_insert_self m a.name ⟨agencyTitles a, a.name⟩
        · have hcond : ¬ (a.name = n ∧ ¬ (agencyTitles a).isEmpty = true) :=
            fun hh => hn hh.1
          rw [if_neg hcond]
          exact dictLookup_insert_ne m _ (fun hh => hn hh.symm)

/-- The index built by `build_agency_title_map`, characterised per key: the
last feed entry carrying that name and at least one document reference wins. -/
theorem build_map_lookup (d : AgenciesData) (n : String) :
    dictLookup (build_agency_title_map d) n =
      (lastFeedEntry n d.agencies).map
        (fun a => (⟨agencyTitles a, a.name⟩ : AgencyInfo)) := by
  rw [build_agency_title_map, buildMapLoop_lookup]
  cases lastFeedEntry n d.agencies <;> rfl

theorem lastFeedEntry_name {n : String} :
    ∀ {as : List Agency} {a : Agency}, lastFeedEntry n as = some a → a.name = n := by
  intro as
  induction as with
  | nil => intro a h; exact absurd h (by simp [lastFeedEntry])
  | cons b rest ih =>
    intro a h
    simp only [lastFeedEntry] at h
    cases hl : lastFeedEntry n rest with
    | some c =>
      rw [hl] at h
      exact ih (hl.trans (by injection h with h2; rw [h2]))
    | none =>
      rw [hl] at h
      by_cases hb : b.name = n ∧ ¬ (agencyTitles b).isEmpty = true
      · rw [if_pos hb] at h
        injection h with h2
        rw [← h2]
        exact hb.1
      · rw [if_neg hb] at h
        exact absurd h (by simp)

theorem buildMapLoop_nodupKeys :
    ∀ (as : List Agency) (m : List (String × AgencyInfo)),
      (m.map Prod.fst).Nodup → ((buildMapLoop as m).map Prod.fst).Nodup := by
  intro as
  induction as with
  | nil => intro m h; exact h
  | cons a rest ih =>
    intro m h
    simp only [buildMapLoop]
    by_cases ht : (agencyTitles a).isEmpty
    · rw [if_pos ht]; exact ih m h
    · rw [if_neg ht]; exact ih _ (nodupKeys_dictInsert _ _ h)

theorem buildMap_nodupKeys (d : AgenciesData) :
    ((build_agency_title_map d).map Prod.fst).Nodup :=
  buildMapLoop_nodupKeys d.agencies [] (by simp)

/-! ## Agency Analyzer lemmas -/

theorem contributingPairs_cons_none {d : AgenciesData} {docs : Nat → Option XmlNode}
    {aid : String} {t : Nat} (rest : List Nat) (h : docs t = none) :
    contributingPairs d docs aid (t :: rest) = contributingPairs d docs aid rest := by
  simp [contributingPairs, List.filterMap_cons, extractedTextAt, h]

theorem contributingPairs_cons_blank {d : AgenciesData} {docs : Nat → Option XmlNode}
    {aid : String} {t : Nat} {doc : XmlNode} (rest : List Nat) (h : docs t = some doc)
    (hb : pyStrip (parse_title_xml_flat doc (chapterFilter d aid t)) = "") :
    contributingPairs d docs aid (t :: rest) = contributingPairs d docs aid rest := by
  simp [contributingPairs, List.filterMap_cons, extractedTextAt, h, hb]

theorem contributingPairs_cons_text {d : AgenciesData} {docs : Nat → Option XmlNode}
    {aid : String} {t : Nat} {doc : XmlNode} (rest : List Nat) (h : docs t = some doc)
    (hb : ¬ pyStrip (parse_title_xml_flat doc (chapterFilter d aid t)) = "") :
    contributingPairs d docs aid (t :: rest) =
      (t, parse_title_xml_flat doc (chapterFilter d aid t)) ::
        contributingPairs d docs aid rest := by
  simp [contributingPairs, List.filterMap_cons, extractedTextAt, h, hb]

theorem analyzeAgencyLoop_cons_none {d : AgenciesData} {docs : Nat → Option XmlNode}
    {aid : String} {t : Nat} (rest : List Nat) (acc : String × Nat × List Nat)
    (h : docs t = none) :
    analyzeAgencyLoop d docs aid (t :: rest) acc =
      analyzeAgencyLoop d docs aid rest acc := by
  simp [analyzeAgencyLoop, h]

theorem analyzeAgencyLoop_cons_blank {d : AgenciesData} {docs : Nat → Option XmlNode}
    {aid : String} {t : Nat} {doc : XmlNode} (rest : List Nat)
    (acc : String × Nat × List Nat) (h : docs t = some doc)
    (hb : pyStrip (parse_title_xml_flat doc (chapterFilter d aid t)) = "") :
    analyzeAgencyLoop d docs aid (t :: rest) acc =
      analyzeAgencyLoop d docs aid rest acc := by
  simp [analyzeAgencyLoop, h, hb]

theorem analyzeAgencyLoop_cons_text {d : AgenciesData} {docs : Nat → Option XmlNode}
    {aid : String} {t : Nat} {doc : XmlNode} (rest : List Nat)
    (acc : String × Nat × List Nat) (h : docs t = some doc)
    (hb : ¬ pyStrip (parse_title_xml_flat doc (chapterFilter d aid t)) = "") :
    analyzeAgencyLoop d docs aid (t :: rest) acc =
      analyzeAgencyLoop d docs aid rest
        (acc.1 ++ " " ++ parse_title_xml_flat doc (chapterFilter d aid t),
         acc.2.1 + compute_word_count (parse_title_xml_flat doc (chapterFilter d aid t)),
         acc.2.2 ++ [t]) := by
  simp [analyzeAgencyLoop, h, hb]

theorem analyzeAgencyLoop_spec (d : AgenciesData) (docs : Nat → Option XmlNode)
    (aid : String) :
    ∀ (titles : List Nat) (acc : String × Nat × List Nat),
      analyzeAgencyLoop d docs aid titles acc =
        (acc.1 ++ prefixJoin (contributingTexts d docs aid titles),
         acc.2.1 + ((contributingTexts d docs aid titles).map compute_word_count).sum,
         acc.2.2 ++ contributingTitles d docs aid titles) := by
  intro titles
  induction titles with
  | nil =>
    intro acc
    simp [analyzeAgencyLoop, contributingTexts, contributingTitles, contributingPairs,
      prefixJoin, String.append_empty]
  | cons t rest ih =>
    intro acc
    cases hdoc : docs t with
    | none =>
      rw [analyzeAgencyLoop_cons_none rest acc hdoc]
      simp only [contributingTexts, contributingTitles,
        contributingPairs_cons_none rest hdoc]
      exact ih acc
    | some doc =>
      by_cases hblank : pyStrip (parse_title_xml_flat doc (chapterFilter d aid t)) = ""
      · rw [analyzeAgencyLoop_cons_blank rest acc hdoc hblank]
        simp only [contributingTexts, contributingTitles,
          contributingPairs_cons_blank rest hdoc hblank]
        exact ih acc
      · rw [analyzeAgencyLoop_cons_text rest acc hdoc hblank, ih]
        simp only [contributingTexts, contributingTitles,
          contributingPairs_cons_text rest hdoc hblank, List.map_cons, List.sum_cons,
          prefixJoin, Prod.mk.injEq]
        refine ⟨?_, ?_, ?_⟩
        · simp [String.append_assoc]
        · omega
        · simp

theorem analyzeAgency_spec (d : AgenciesData) (docs : Nat → Option XmlNode)
    (aid : String) (info : AgencyInfo) :
    analyzeAgency d docs aid info =
      (prefixJoin (contributingTexts d docs aid info.titles),
       ((contributingTexts d docs aid info.titles).map compute_word_count).sum,
       contributingTitles d docs aid info.titles) := by
  rw [analyzeAgency, analyzeAgencyLoop_spec]
  simp [String.empty_append]

theorem prefixJoin_eq_space_join :
    ∀ {l : List String}, l ≠ [] → prefixJoin l = " " ++ joinWithSpace l := by
  intro l
  induction l with
  | nil => intro h; exact absurd rfl h
  | cons t rest ih =>
    intro _
    cases rest with
    | nil => simp [prefixJoin, joinWithSpace, String.append_empty]
    | cons b bs =>
      rw [prefixJoin, ih (by simp)]
      show " " ++ t ++ (" " ++ joinWithSpace (b :: bs)) =
        " " ++ (t ++ " " ++ joinWithSpace (b :: bs))
      simp [String.append_assoc]

theorem analyzeLoop_lookup_notmem (d : AgenciesData) (docs : Nat → Option XmlNode)
    (af : Option String) (aid : String) :
    ∀ (entries : List (String × AgencyInfo)) (res : List (String × MetricsRecord)),
      aid ∉ entries.map Prod.fst →
      dictLookup (analyzeLoop d docs af entries res) aid = dictLookup res aid := by
  intro entries
  induction entries with
  | nil => intro res _; rfl
  | cons p rest ih =>
    intro res hmem
    obtain ⟨k, i⟩ := p
    simp only [List.map_cons, List.mem_cons, not_or] at hmem
    simp only [analyzeLoop]
    by_cases hskip : skipByFilter af k
    · rw [if_pos hskip]; exact ih res hmem.2
    · rw [if_neg hskip]
      by_cases hblank : pyStrip (analyzeAgency d docs k i).1 = ""
      · rw [if_pos hblank]; exact ih res hmem.2
      · rw [if_neg hblank]
        rw [ih _ hmem.2]
        exact dictLookup_insert_ne res _ hmem.1

theorem analyzeLoop_lookup (d : AgenciesData) (docs : Nat → Option XmlNode)
    (af : Option String) (aid : String) :
    ∀ (entries : List (String × AgencyInfo)) (res : List (String × MetricsRecord)),
      (entries.map Prod.fst).Nodup →
      dictLookup (analyzeLoop d docs af entries res) aid =
        match dictLookup entries aid with
        | none => dictLookup res aid
        | some info =>
          if skipByFilter af aid then dictLookup res aid
          else if pyStrip (analyzeAgency d docs aid info).1 = "" then dictLookup res aid
          else some (mkRecord info (analyzeAgency d docs aid info)) := by
  intro entries
  induction entries with
  | nil => intro res _; rfl
  | cons p rest ih =>
    intro res hnd
    obtain ⟨k, i⟩ := p
    simp only [List.map_cons, List.nodup_cons] at hnd
    by_cases hk : k = aid
    · subst hk
      have hlook : dictLookup ((k, i) :: rest) k = some i := by
        simp only [dictLookup]
        rw [List.find?_cons_of_pos _ (by simp)]
        rfl
      rw [hlook]
      simp only [analyzeLoop]
      by_cases hskip : skipByFilter af k
      · rw [if_pos hskip, if_pos hskip]
        exact analyzeLoop_lookup_notmem d docs af k rest res hnd.1
      · rw [if_neg hskip, if_neg hskip]
        by_cases hblank : pyStrip (analyzeAgency d docs k i).1 = ""
        · rw [if_pos hblank, if_pos hblank]
          exact analyzeLoop_lookup_notmem d docs af k rest res hnd.1
        · rw [if_neg hblank, if_neg hblank]
          rw [analyzeLoop_lookup_notmem d docs af k rest _ hnd.1]
          exact dictLookup_insert_self res k _
    · have hlook : dictLookup ((k, i) :: rest) aid = dictLookup rest aid := by
        simp only [dictLookup]
        rw [List.find?_cons_of_neg _ (by simpa using hk)]
      rw [hlook]
      simp only [analyzeLoop]
      by_cases hskip : skipByFilter af k
      · rw [if_pos hskip]
        exact ih res hnd.2
      · rw [if_neg hskip]
        by_cases hblank : pyStrip (analyzeAgency d docs k i).1 = ""
        · rw [if_pos hblank]
          exact ih res hnd.2
        · rw [if_neg hblank]
          rw [ih _ hnd.2]
          cases dictLookup rest aid with
          | none => exact dictLookup_insert_ne res _ (fun hh => hk hh.symm)
          | some info =>
            by_cases hskip2 : skipByFilter af aid
            · simp only [hskip2, if_true]
              exact dictLookup_insert_ne res _ (fun hh => hk hh.symm)
            · simp only [hskip2, if_false]
              by_cases hblank2 : pyStrip (analyzeAgency d docs aid info).1 = ""
              · simp only [hblank2, if_pos rfl]
                exact dictLookup_insert_ne res _ (fun hh => hk hh.symm)
              · simp only [if_neg hblank2]
                rfl

/-- The result of `analyze_agencies`, characterised per key: an entity is
present exactly when it is in the index, passes the agency filter, and its
combined text does not strip to nothing; its record is then determined by the
per-title loop. -/
theorem analyze_lookup (d : AgenciesData) (docs : Nat → Option XmlNode)
    (af : Option String) (aid : String) :
    dictLookup (analyze_agencies d docs af) aid =
      match dictLookup (build_agency_title_map d) aid with
      | none => none
      | some info =>
        if skipByFilter af aid then none
        else if pyStrip (analyzeAgency d docs aid info).1 = "" then none
        else some (mkRecord info (analyzeAgency d docs aid info)) := by
  rw [analyze_agencies, analyzeLoop_lookup d docs af aid _ _ (buildMap_nodupKeys d)]
  cases dictLookup (build_agency_title_map d) aid with
  | none => rfl
  | some info =>
    by_cases hskip : skipByFilter af aid
    · simp [hskip, dictLookup_nil]
    · by_cases hblank : pyStrip (analyzeAgency d docs aid info).1 = "" <;>
        simp [hskip, hblank, dictLookup_nil]

theorem analyzeLoop_nodupKeys (d : AgenciesData) (docs : Nat → Option XmlNode)
    (af : Option String) :
    ∀ (entries : List (String × AgencyInfo)) (res : List (String × MetricsRecord)),
      (res.map Prod.fst).Nodup →
      ((analyzeLoop d docs af entries res).map Prod.fst).Nodup := by
  intro entries
  induction entries with
  | nil => intro res h; exact h
  | cons p rest ih =>
    intro res h
    obtain ⟨k, i⟩ := p
    simp only [analyzeLoop]
    by_cases hskip : skipByFilter af k
    · rw [if_pos hskip]; exact ih res h
    · rw [if_neg hskip]
      by_cases hblank : pyStrip (analyzeAgency d docs k i).1 = ""
      · rw [if_pos hblank]; exact ih res h
      · rw [if_neg hblank]; exact ih _ (nodupKeys_dictInsert _ _ h)

theorem analyze_nodupKeys (d : AgenciesData) (docs : Nat → Option XmlNode)
    (af : Option String) :
    ((analyze_agencies d docs af).map Prod.fst).Nodup :=
  analyzeLoop_nodupKeys d docs af _ [] (by simp)

theorem contributingPairs_sound {d : AgenciesData} {docs : Nat → Option XmlNode}
    {aid : String} :
    ∀ {titles : List Nat} {p : Nat × String}, p ∈ contributingPairs d docs aid titles →
      extractedTextAt d docs aid p.1 = some p.2 ∧ ¬ pyStrip p.2 = "" := by
  intro titles
  induction titles with
  | nil => intro p h; simp [contributingPairs] at h
  | cons t rest ih =>
    intro p h
    cases hdoc : docs t with
    | none =>
      rw [contributingPairs_cons_none rest hdoc] at h
      exact ih h
    | some doc =>
      by_cases hb : pyStrip (parse_title_xml_flat doc (chapterFilter d aid t)) = ""
      · rw [contributingPairs_cons_blank rest hdoc hb] at h
        exact ih h
      · rw [contributingPairs_cons_text rest hdoc hb] at h
        rcases List.mem_cons.mp h with h | h
        · subst h
          exact ⟨by simp [extractedTextAt, hdoc], hb⟩
        · exact ih h

theorem analyze_record_fields (d : AgenciesData) (docs : Nat → Option XmlNode)
    (af : Option String) (aid : String) (info : AgencyInfo) (m : MetricsRecord)
    (hinfo : dictLookup (build_agency_title_map d) aid = some info)
    (hm : dictLookup (analyze_agencies d docs af) aid = some m) :
    m = mkRecord info (analyzeAgency d docs aid info) ∧
      ¬ pyStrip (analyzeAgency d docs aid info).1 = "" := by
  rw [analyze_lookup, hinfo] at hm
  have hm2 : (if skipByFilter af aid = true then none
      else if pyStrip (analyzeAgency d docs aid info).1 = "" then none
      else some (mkRecord info (analyzeAgency d docs aid info))) = some m := hm
  by_cases hskip : skipByFilter af aid
  · rw [if_pos hskip] at hm2
    exact absurd hm2 (by simp)
  · rw [if_neg hskip] at hm2
    by_cases hblank : pyStrip (analyzeAgency d docs aid info).1 = ""
    · rw [if_pos hblank] at hm2
      exact absurd hm2 (by simp)
    · rw [if_neg hblank] at hm2
      refine ⟨?_, hblank⟩
      injection hm2 with hm3
      exact hm3.symm

/-! ## Claim theorems and their concrete instances -/

set_option maxRecDepth 1000000 in
/-- C1 is false on the code: the loop `combined_text += " " + text` prepends a
separator before the first fragment, so with a single contributing document of
extracted text `a`, the reported checksum is the digest of `" a"`, which
differs from the digest of the fragments joined with no leading separator. -/
theorem C1_counterexample :
    contributingTexts c1D c1Docs "A" [1] = ["a"] ∧
    (dictLookup (analyze_agencies c1D c1Docs none) "A").map MetricsRecord.checksum =
      some (compute_checksum " a") ∧
    compute_checksum " a" ≠ compute_checksum (joinWithSpace ["a"]) :=
  ⟨by decide, by decide, by decide⟩

/-- C1 (amended): for every entity `analyze_agencies` emits a record for, the
reported checksum is the SHA-256 hex digest of the contributing documents'
extracted texts, each preceded by exactly one space, concatenated in
document-id iteration order — i.e. one leading space, one space between
consecutive fragments, no trailing separator. -/
theorem C1_checksum_of_combined (d : AgenciesData) (docs : Nat → Option XmlNode)
    (af : Option String) (aid : String) (info : AgencyInfo) (m : MetricsRecord)
    (hinfo : dictLookup (build_agency_title_map d) aid = some info)
    (hm : dictLookup (analyze_agencies d docs af) aid = some m) :
    m.checksum =
      compute_checksum
        (" " ++ joinWithSpace (contributingTexts d docs aid info.titles)) := by
  obtain ⟨rfl, hblank⟩ := analyze_record_fields d docs af aid info m hinfo hm
  have hc : (analyzeAgency d docs aid info).1 =
      prefixJoin (contributingTexts d docs aid info.titles) := by
    rw [analyzeAgency_spec]
  have hne : contributingTexts d docs aid info.titles ≠ [] := by
    intro hnil
    apply hblank
    rw [hc, hnil]
    rfl
  show compute_checksum (analyzeAgency d docs aid info).1 = _
  rw [hc, prefixJoin_eq_space_join hne]

set_option maxRecDepth 1000000 in
/-- Witness for C1_checksum_of_combined: in the `c1` world the emitted
checksum is the digest of the single fragment preceded by one space. -/
theorem C1_witness :
    dictLookup (build_agency_title_map c1D) "A" = some (⟨[1], "A"⟩ : AgencyInfo) ∧
    dictLookup (analyze_agencies c1D c1Docs none) "A" = some c1rec ∧
    c1rec.checksum =
      compute_checksum (" " ++ joinWithSpace (contributingTexts c1D c1Docs "A" [1])) :=
  ⟨by decide, by decide,
    C1_checksum_of_combined c1D c1Docs none "A" ⟨[1], "A"⟩ c1rec (by decide) (by decide)⟩

/-- C3 is false on the code: `agency_map[name] = {...}` replaces the earlier
entry, so two feed entries named `X` referencing documents 1 and 2 leave only
document 2 in the index, not the merged set. -/
theorem C3_counterexample :
    dictLookup (build_agency_title_map c3D) "X" = some (⟨[2], "X"⟩ : AgencyInfo) ∧
    (1 : Nat) ∉ ([2] : List Nat) :=
  ⟨by decide, by decide⟩

/-- C3 (amended): when the raw feed yields two or more entries with the same
resolved entity name, `build_agency_title_map` keeps, for that name, exactly
the document-id list of the last such entry that references at least one
document — later entries replace, not merge, the earlier ones. -/
theorem C3_last_entry_wins (d : AgenciesData) (n : String) :
    dictLookup (build_agency_title_map d) n =
      (lastFeedEntry n d.agencies).map
        (fun a => (⟨agencyTitles a, a.name⟩ : AgencyInfo)) :=
  build_map_lookup d n

/-- C6: a document whose fetch fails is skipped for that entity and the run
continues; the emitted record's contributing-title list, titles count and word
count are computed from exactly the documents that were available and yielded
nonblank text. -/
theorem C6_fetch_failure_skipped (d : AgenciesData) (docs : Nat → Option XmlNode)
    (af : Option String) (aid : String) (info : AgencyInfo) (m : MetricsRecord)
    (hinfo : dictLookup (build_agency_title_map d) aid = some info)
    (hm : dictLookup (analyze_agencies d docs af) aid = some m) :
    m.titles_analyzed = contributingTitles d docs aid info.titles ∧
    m.titles_count = (contributingTitles d docs aid info.titles).length ∧
    m.word_count =
      ((contributingTexts d docs aid info.titles).map compute_word_count).sum ∧
    ∀ t ∈ m.titles_analyzed, (docs t).isSome := by
  obtain ⟨rfl, _⟩ := analyze_record_fields d docs af aid info m hinfo hm
  have hspec := analyzeAgency_spec d docs aid info
  refine ⟨?_, ?_, ?_, ?_⟩
  · show (analyzeAgency d docs aid info).2.2 = _
    rw [hspec]
  · show (analyzeAgency d docs aid info).2.2.length = _
    rw [hspec]
  · show (analyzeAgency d docs aid info).2.1 = _
    rw [hspec]
  · intro t ht
    have ht2 : t ∈ contributingTitles d docs aid info.titles := by
      have : (analyzeAgency d docs aid info).2.2 =
          contributingTitles d docs aid info.titles := by rw [hspec]
      exact this ▸ ht
    obtain ⟨p, hp, hpt⟩ := List.mem_map.mp ht2
    have := (contributingPairs_sound hp).1
    rw [hpt] at this
    rw [extractedTextAt] at this
    cases hdoc : docs t with
    | none => rw [hdoc] at this; exact absurd this (by simp)
    | some doc => simp

set_option maxRecDepth 1000000 in
/-- Witness for C6_fetch_failure_skipped: the spec scenario — documents 3 and
5 referenced, fetching 3 fails, 5 yields `a b c`; the run emits word count 3
and analyzed titles `[5]` with no failure. -/
theorem C6_witness :
    dictLookup (build_agency_title_map c6D) "A" = some (⟨[3, 5], "A"⟩ : AgencyInfo) ∧
    dictLookup (analyze_agencies c6D c6Docs none) "A" = some c6rec ∧
    c6rec.titles_analyzed = contributingTitles c6D c6Docs "A" [3, 5] ∧
    (c6Docs 3).isSome = false ∧ c6rec.word_count = 3 ∧ c6rec.titles_analyzed = [5] :=
  ⟨by decide, by decide,
    (C6_fetch_failure_skipped c6D c6Docs none "A" ⟨[3, 5], "A"⟩ c6rec
      (by decide) (by decide)).1,
    by decide, by decide, by decide⟩

/-- C7: an entity whose accumulated combined text is empty or whitespace-only
is simply absent from the `analyze_agencies` result mapping. -/
theorem C7_blank_entity_absent (d : AgenciesData) (docs : Nat → Option XmlNode)
    (af : Option String) (aid : String)
    (h : pyStrip (accumulatedText d docs aid) = "") :
    dictLookup (analyze_agencies d docs af) aid = none := by
  rw [analyze_lookup]
  cases hinfo : dictLookup (build_agency_title_map d) aid with
  | none => rfl
  | some info =>
    by_cases hskip : skipByFilter af aid
    · simp [hskip]
    · have hblank : pyStrip (analyzeAgency d docs aid info).1 = "" := by
        rw [accumulatedText, hinfo] at h
        exact h
      simp [hskip, hblank]

set_option maxRecDepth 1000000 in
/-- Witness for C7_blank_entity_absent: with no document available the
accumulated text is empty and the entity is absent from the result. -/
theorem C7_witness :
    pyStrip (accumulatedText c7D c7Docs "A") = "" ∧
    dictLookup (analyze_agencies c7D c7Docs none) "A" = none :=
  ⟨by decide, C7_blank_entity_absent c7D c7Docs none "A" (by decide)⟩

/-- C8: the reported word count is the sum, over the contributing documents in
iteration order, of the whitespace-token counts of each document's
individually extracted text. -/
theorem C8_sum_law (d : AgenciesData) (docs : Nat → Option XmlNode)
    (af : Option String) (aid : String) (info : AgencyInfo) (m : MetricsRecord)
    (hinfo : dictLookup (build_agency_title_map d) aid = some info)
    (hm : dictLookup (analyze_agencies d docs af) aid = some m) :
    m.word_count =
      (m.titles_analyzed.map
        (fun t => compute_word_count ((extractedTextAt d docs aid t).getD ""))).sum := by
  obtain ⟨rfl, _⟩ := analyze_record_fields d docs af aid info m hinfo hm
  have hspec := analyzeAgency_spec d docs aid info
  show (analyzeAgency d docs aid info).2.1 =
    ((analyzeAgency d docs aid info).2.2.map
      (fun t => compute_word_count ((extractedTextAt d docs aid t).getD ""))).sum
  rw [hspec]
  show ((contributingTexts d docs aid info.titles).map compute_word_count).sum = _
  rw [contributingTitles, contributingTexts, List.map_map, List.map_map]
  congr 1
  apply List.map_congr_left
  intro p hp
  have hsound := (contributingPairs_sound hp).1
  simp [Function.comp, hsound]

theorem relevant_chapters_eq (d : AgenciesData) (aid : String) (t : Nat) :
    relevant_chapters d aid t = (suppliedChapters d aid t).filterMap id := by
  rw [relevant_chapters, suppliedChapters]
  induction d.agencies with
  | nil => rfl
  | cons a rest ih =>
    simp only [List.flatMap_cons, List.filterMap_append]
    rw [ih]
    congr 1
    by_cases hn : resolvedName a = aid
    · rw [if_pos hn, if_pos hn, List.filterMap_filterMap]
      congr 1
      funext cref
      by_cases ht : cref.title = some t
      · simp [ht]
      · simp [ht]
    · rw [if_neg hn, if_neg hn]
      rfl

/-- C2 is false on the code: the comprehension drops `None` chapters one by
one, so a pair whose feed references carry chapters `I` and `None` gets the
filter `["I"]`, not the whole-document filter the claim requires when any
associated chapter code is missing. -/
theorem C2_counterexample :
    (none : Option String) ∈ suppliedChapters c2D "A" 1 ∧
    chapterFilter c2D "A" 1 = some ["I"] :=
  ⟨by decide, by decide⟩

/-- C2 (amended): the chapter filter passed to the parser is none exactly when
the feed supplies no non-missing chapter code for the (entity, document) pair;
otherwise it is exactly the list of non-missing chapter codes supplied, in
feed order — missing/undefined codes are dropped individually and never
degrade the filter to whole-document. -/
theorem C2_filter_from_supplied (d : AgenciesData) (aid : String) (t : Nat) :
    chapterFilter d aid t =
      (if ((suppliedChapters d aid t).filterMap id).isEmpty then none
       else some ((suppliedChapters d aid t).filterMap id)) := by
  show (if (relevant_chapters d aid t).isEmpty then none
    else some (relevant_chapters d aid t)) = _
  rw [relevant_chapters_eq]

/-- C9: the code raises an uncaught `KeyError` at the subscript
`info = agency_map[agency_name]` for a name absent from the index; the
membership check meant to return an empty result sits after the subscript and
is dead, so the caller sees an unhandled failure, not a controlled
"no such entity" result. -/
theorem C9_unknown_agency_keyerror :
    extract_relevant_text_for_agency c9D c9Docs "Ghost" = .error .keyError := by
  rfl

/-- C10: for an agency whose display name is present, nonempty and different
from its name (in a feed where no entry resolves to that agency's name), the
chapter lookup inside `analyze_agencies` — which compares `display_name or
name` against the map key built from `name` — matches no feed entry, so the
filter is none and every available referenced document is parsed whole,
even though the feed scopes the reference to specific chapters. -/
theorem C10_display_name_mismatch (d : AgenciesData) (docs : Nat → Option XmlNode)
    (a : Agency) (dn : String)
    (hmem : a ∈ d.agencies) (hdn : a.display_name = some dn) (hne : dn ≠ "")
    (hnn : dn ≠ a.name)
    (hnores : ∀ b ∈ d.agencies, resolvedName b ≠ a.name) :
    ∀ t : Nat,
      relevant_chapters d a.name t = [] ∧
      chapterFilter d a.name t = none ∧
      extractedTextAt d docs a.name t =
        (docs t).map (fun doc => parse_title_xml_flat doc none) := by
  intro t
  have hrc : relevant_chapters d a.name t = [] := by
    rw [relevant_chapters, List.flatMap_eq_nil_iff]
    intro b hb
    rw [if_neg (hnores b hb)]
  have hcf : chapterFilter d a.name t = none := by
    show (if (relevant_chapters d a.name t).isEmpty then none
      else some (relevant_chapters d a.name t)) = none
    rw [hrc]
    rfl
  refine ⟨hrc, hcf, ?_⟩
  rw [extractedTextAt]
  simp only [hcf]

/-- Witness for C10_display_name_mismatch: agency named `Environmental
Protection Agency` displayed as `EPA`, scoped to chapter `I` of document 40;
the filter resolves to none and document 40 is parsed whole. -/
theorem C10_witness :
    (⟨"Environmental Protection Agency", some "EPA", [⟨some 40, some "I"⟩]⟩ : Agency)
        ∈ c10D.agencies ∧
    relevant_chapters c10D "Environmental Protection Agency" 40 = [] ∧
    chapterFilter c10D "Environmental Protection Agency" 40 = none ∧
    extractedTextAt c10D c10Docs "Environmental Protection Agency" 40 =
      (c10Docs 40).map (fun doc => parse_title_xml_flat doc none) :=
  ⟨by decide,
    (C10_display_name_mismatch c10D c10Docs
      ⟨"Environmental Protection Agency", some "EPA", [⟨some 40, some "I"⟩]⟩ "EPA"
      (by decide) (by decide) (by decide) (by decide) (by decide) 40).1,
    (C10_display_name_mismatch c10D c10Docs
      ⟨"Environmental Protection Agency", some "EPA", [⟨some 40, some "I"⟩]⟩ "EPA"
      (by decide) (by decide) (by decide) (by decide) (by decide) 40).2.1,
    (C10_display_name_mismatch c10D c10Docs
      ⟨"Environmental Protection Agency", some "EPA", [⟨some 40, some "I"⟩]⟩ "EPA"
      (by decide) (by decide) (by decide) (by decide) (by decide) 40).2.2⟩

set_option maxRecDepth 1000000 in
/-- Witness for C8_sum_law at the `c6` world: 3 = 0-for-missing-title-3 plus
3 tokens from title 5. -/
theorem C8_witness :
    dictLookup (build_agency_title_map c6D) "A" = some (⟨[3, 5], "A"⟩ : AgencyInfo) ∧
    dictLookup (analyze_agencies c6D c6Docs none) "A" = some c6rec ∧
    c6rec.word_count =
      (c6rec.titles_analyzed.map
        (fun t => compute_word_count ((extractedTextAt c6D c6Docs "A" t).getD ""))).sum :=
  ⟨by decide, by decide,
    C8_sum_law c6D c6Docs none "A" ⟨[3, 5], "A"⟩ c6rec (by decide) (by decide)⟩

/-! ## Historical Differ lemmas -/

theorem dictLookup_cons {α : Type} (x y : String) (v : α) (rest : List (String × α)) :
    dictLookup ((x, v) :: rest) y = if x = y then some v else dictLookup rest y := by
  by_cases h : x = y
  · rw [dictLookup, List.find?_cons_of_pos _ (by simpa using h), if_pos h]
    rfl
  · rw [dictLookup, List.find?_cons_of_neg _ (by simpa using h), if_neg h]
    rfl

theorem dictLookup_pair {α : Type} (x y : String) (v : α) :
    dictLookup [(x, v)] y = if x = y then some v else none := by
  rw [dictLookup_cons]
  rfl

theorem dictInsert_pair {α : Type} (d1 d2 : String) (n1 n2 : α) :
    dictInsert [(d1, n1)] d2 n2 =
      if d1 = d2 then [(d2, n2)] else [(d1, n1), (d2, n2)] := by
  by_cases h : d1 = d2 <;> simp [dictInsert, dictContains, h]

theorem dictLookup_map_nodelta (k : String) :
    ∀ (l : List (String × List (String × DateMetrics))),
      dictLookup (l.map (fun p => (p.1, (⟨p.2, none⟩ : HistoryEntry)))) k =
        (dictLookup l k).map (fun r => (⟨r, none⟩ : HistoryEntry)) := by
  intro l
  induction l with
  | nil => rfl
  | cons p rest ih =>
    by_cases hk : p.1 = k
    · simp only [List.map_cons, dictLookup]
      rw [List.find?_cons_of_pos _ (by simpa using hk),
        List.find?_cons_of_pos _ (by simpa using hk)]
      rfl
    · simp only [List.map_cons, dictLookup]
      rw [List.find?_cons_of_neg _ (by simpa using hk),
        List.find?_cons_of_neg _ (by simpa using hk)]
      exact ih

theorem insertDateLoop_lookup_notmem (date : String) :
    ∀ (ms : List (String × MetricsRecord))
      (hist : List (String × List (String × DateMetrics))) (a : String),
      a ∉ ms.map Prod.fst →
      dictLookup (insertDateLoop date ms hist) a = dictLookup hist a := by
  intro ms
  induction ms with
  | nil => intro hist a _; rfl
  | cons p rest ih =>
    intro hist a hmem
    obtain ⟨a0, m0⟩ := p
    simp only [List.map_cons, List.mem_cons, not_or] at hmem
    show dictLookup (insertDateLoop date rest (histInsert hist a0 date (toDateMetrics m0))) a = _
    rw [ih _ a hmem.2, histInsert, dictLookup_insert_ne _ _ hmem.1]

theorem insertDateLoop_lookup (date : String) :
    ∀ (ms : List (String × MetricsRecord))
      (hist : List (String × List (String × DateMetrics))) (a : String),
      (ms.map Prod.fst).Nodup →
      dictLookup (insertDateLoop date ms hist) a =
        match dictLookup ms a with
        | some m =>
          some (dictInsert ((dictLookup hist a).getD []) date (toDateMetrics m))
        | none => dictLookup hist a := by
  intro ms
  induction ms with
  | nil => intro hist a _; rfl
  | cons p rest ih =>
    intro hist a hnd
    obtain ⟨a0, m0⟩ := p
    simp only [List.map_cons, List.nodup_cons] at hnd
    rw [dictLookup_cons]
    by_cases hk : a0 = a
    · subst hk
      rw [if_pos rfl]
      show dictLookup (insertDateLoop date rest (histInsert hist a0 date (toDateMetrics m0))) a0 = _
      rw [insertDateLoop_lookup_notmem date rest _ a0 hnd.1, histInsert,
        dictLookup_insert_self]
    · rw [if_neg hk]
      show dictLookup (insertDateLoop date rest (histInsert hist a0 date (toDateMetrics m0))) a = _
      rw [ih _ a hnd.2]
      cases hrest : dictLookup rest a with
      | none =>
        rw [histInsert, dictLookup_insert_ne _ _ (fun hh => hk hh.symm)]
      | some m =>
        rw [histInsert, dictLookup_insert_ne _ _ (fun hh => hk hh.symm)]

theorem buildHistory_two (d : AgenciesData) (docs : String → Nat → Option XmlNode)
    (af : Option String) (da db a : String) :
    dictLookup (buildHistoryLoop d docs af [da, db] []) a =
      match aRec d docs af da a, aRec d docs af db a with
      | some m1, some m2 => some (dictInsert [(da, m1)] db m2)
      | some m1, none => some [(da, m1)]
      | none, some m2 => some [(db, m2)]
      | none, none => none := by
  show dictLookup (insertDateLoop db (analyze_agencies d (docs db) af)
    (insertDateLoop da (analyze_agencies d (docs da) af) [])) a = _
  rw [insertDateLoop_lookup db _ _ a (analyze_nodupKeys d (docs db) af),
    insertDateLoop_lookup da _ _ a (analyze_nodupKeys d (docs da) af)]
  simp only [aRec]
  cases hm1 : dictLookup (analyze_agencies d (docs da) af) a with
  | none =>
    cases hm2 : dictLookup (analyze_agencies d (docs db) af) a with
    | none => rfl
    | some m2 => rfl
  | some m1 =>
    cases hm2 : dictLookup (analyze_agencies d (docs db) af) a with
    | none => rfl
    | some m2 => rfl

theorem attachDelta_records (d1 d2 : String) (recs : List (String × DateMetrics)) :
    (attachDelta d1 d2 recs).records = recs := by
  simp only [attachDelta]
  cases dictLookup recs d1 <;> cases dictLookup recs d2 <;> rfl

theorem attachDelta_isSome (d1 d2 : String) (recs : List (String × DateMetrics)) :
    (attachDelta d1 d2 recs).delta.isSome ↔
      (dictLookup recs d1).isSome ∧ (dictLookup recs d2).isSome := by
  simp only [attachDelta]
  cases dictLookup recs d1 <;> cases dictLookup recs d2 <;> simp

theorem attachDelta_val (d1 d2 : String) (recs : List (String × DateMetrics))
    (m1 m2 : DateMetrics) (h1 : dictLookup recs d1 = some m1)
    (h2 : dictLookup recs d2 = some m2) :
    (attachDelta d1 d2 recs).delta =
      some ⟨(m2.word_count : Int) - (m1.word_count : Int)⟩ := by
  simp only [attachDelta, h1, h2]

/-- C5: the Historical Differ attaches a delta to an entity iff exactly two
dates were requested and the entity holds a record on both; the word-count
delta equals word_count at the second date minus word_count at the first, and
requesting the same two dates in reverse order yields the negated delta. -/
theorem C5_delta_characterisation (d : AgenciesData)
    (docs : String → Nat → Option XmlNode) (dates : List String) (af : Option String)
    (a : String) (e : HistoryEntry)
    (he : dictLookup (analyze_agencies_over_time d docs dates af) a = some e) :
    (e.delta.isSome ↔ ∃ d1 d2, dates = [d1, d2] ∧
      (dictLookup e.records d1).isSome ∧ (dictLookup e.records d2).isSome) ∧
    (∀ d1 d2 m1 m2 δ, dates = [d1, d2] →
      dictLookup e.records d1 = some m1 → dictLookup e.records d2 = some m2 →
      e.delta = some δ →
      δ.word_count = (m2.word_count : Int) - (m1.word_count : Int)) ∧
    (∀ d1 d2 δ, dates = [d1, d2] → e.delta = some δ →
      ∃ e2 δ2,
        dictLookup (analyze_agencies_over_time d docs [d2, d1] af) a = some e2 ∧
        e2.delta = some δ2 ∧ δ2.word_count = -δ.word_count) := by
  rcases dates with _ | ⟨d1, _ | ⟨d2, _ | ⟨d3, rest⟩⟩⟩
  · simp only [analyze_agencies_over_time] at he
    rw [dictLookup_map_nodelta] at he
    cases hrec : dictLookup (buildHistoryLoop d docs af [] []) a with
    | none => rw [hrec] at he; exact absurd he (by simp)
    | some recs =>
      rw [hrec] at he
      injection he with he2
      subst he2
      exact ⟨by simp, fun x y m1 m2 δ hdates _ _ _ => absurd hdates (by simp),
        fun x y δ hdates _ => absurd hdates (by simp)⟩
  · simp only [analyze_agencies_over_time] at he
    rw [dictLookup_map_nodelta] at he
    cases hrec : dictLookup (buildHistoryLoop d docs af [d1] []) a with
    | none => rw [hrec] at he; exact absurd he (by simp)
    | some recs =>
      rw [hrec] at he
      injection he with he2
      subst he2
      exact ⟨by simp, fun x y m1 m2 δ hdates _ _ _ => absurd hdates (by simp),
        fun x y δ hdates _ => absurd hdates (by simp)⟩
  · -- dates = [d1, d2]
    simp only [analyze_agencies_over_time] at he
    rw [dictLookup_map_snd] at he
    cases hrec : dictLookup (buildHistoryLoop d docs af [d1, d2] []) a with
    | none => rw [hrec] at he; exact absurd he (by simp)
    | some recs =>
      rw [hrec] at he
      injection he with he2
      subst he2
      refine ⟨?_, ?_, ?_⟩
      · rw [attachDelta_records, attachDelta_isSome]
        constructor
        · intro h
          exact ⟨d1, d2, rfl, h.1, h.2⟩
        · rintro ⟨x, y, hxy, h1, h2⟩
          simp only [List.cons.injEq, and_true] at hxy
          obtain ⟨hx, hy⟩ := hxy
          subst hx
          subst hy
          exact ⟨h1, h2⟩
      · intro x y m1 m2 δ hdates h1 h2 hδ
        simp only [List.cons.injEq, and_true] at hdates
        obtain ⟨hx, hy⟩ := hdates
        subst hx
        subst hy
        rw [attachDelta_records] at h1 h2
        rw [attachDelta_val d1 d2 recs m1 m2 h1 h2] at hδ
        injection hδ with hδ2
        rw [← hδ2]
      · intro x y δ hdates hδ
        simp only [List.cons.injEq, and_true] at hdates
        obtain ⟨hx, hy⟩ := hdates
        subst hx
        subst hy
        have hboth : (dictLookup recs d1).isSome ∧ (dictLookup recs d2).isSome :=
          (attachDelta_isSome d1 d2 recs).mp (by rw [hδ]; rfl)
        obtain ⟨m1, hm1⟩ := Option.isSome_iff_exists.mp hboth.1
        obtain ⟨m2, hm2⟩ := Option.isSome_iff_exists.mp hboth.2
        have hδeq : δ = ⟨(m2.word_count : Int) - (m1.word_count : Int)⟩ := by
          have hδval := attachDelta_val d1 d2 recs m1 m2 hm1 hm2
          rw [hδ] at hδval
          injection hδval with h3
        have htwo := buildHistory_two d docs af d1 d2 a
        rw [hrec] at htwo
        cases hr1 : aRec d docs af d1 a with
        | none =>
          rw [hr1] at htwo
          cases hr2 : aRec d docs af d2 a with
          | none => rw [hr2] at htwo; exact absurd htwo (by simp)
          | some n2 =>
            rw [hr2] at htwo
            injection htwo with ht2
            rw [ht2, dictLookup_pair] at hm1
            by_cases hd : d2 = d1
            · rw [hd] at hr2
              rw [hr1] at hr2
              exact absurd hr2 (by simp)
            · rw [if_neg hd] at hm1
              exact absurd hm1 (by simp)
        | some n1 =>
          rw [hr1] at htwo
          cases hr2 : aRec d docs af d2 a with
          | none =>
            rw [hr2] at htwo
            injection htwo with ht2
            rw [ht2, dictLookup_pair] at hm2
            by_cases hd : d1 = d2
            · rw [hd] at hr1
              rw [hr2] at hr1
              exact absurd hr1 (by simp)
            · rw [if_neg hd] at hm2
              exact absurd hm2 (by simp)
          | some n2 =>
            rw [hr2] at htwo
            injection htwo with ht2
            rw [dictInsert_pair] at ht2
            by_cases hd : d1 = d2
            · subst hd
              rw [if_pos rfl] at ht2
              rw [ht2, dictLookup_pair, if_pos rfl] at hm1 hm2
              injection hm1 with hm1e
              injection hm2 with hm2e
              have hlook2 : dictLookup (buildHistoryLoop d docs af [d1, d1] []) a =
                  some (dictInsert [(d1, n1)] d1 n1) := by
                rw [buildHistory_two, hr1]
              refine ⟨attachDelta d1 d1 (dictInsert [(d1, n1)] d1 n1),
                ⟨(n1.word_count : Int) - (n1.word_count : Int)⟩, ?_, ?_, ?_⟩
              · simp only [analyze_agencies_over_time]
                rw [dictLookup_map_snd, hlook2]
                rfl
              · rw [dictInsert_pair, if_pos rfl]
                exact attachDelta_val d1 d1 [(d1, n1)] n1 n1
                  (by rw [dictLookup_pair, if_pos rfl])
                  (by rw [dictLookup_pair, if_pos rfl])
              · rw [hδeq, ← hm1e, ← hm2e]
                show (n1.word_count : Int) - (n1.word_count : Int) =
                  -((n2.word_count : Int) - (n2.word_count : Int))
                omega
            · rw [if_neg hd] at ht2
              rw [ht2, dictLookup_cons, if_pos rfl] at hm1
              rw [ht2, dictLookup_cons, if_neg hd, dictLookup_pair, if_pos rfl] at hm2
              injection hm1 with hm1e
              injection hm2 with hm2e
              have hlook2 : dictLookup (buildHistoryLoop d docs af [d2, d1] []) a =
                  some (dictInsert [(d2, n2)] d1 n1) := by
                rw [buildHistory_two, hr1, hr2]
              have hne2 : d2 ≠ d1 := fun hh => hd hh.symm
              refine ⟨attachDelta d2 d1 (dictInsert [(d2, n2)] d1 n1),
                ⟨(n1.word_count : Int) - (n2.word_count : Int)⟩, ?_, ?_, ?_⟩
              · simp only [analyze_agencies_over_time]
                rw [dictLookup_map_snd, hlook2]
                rfl
              · rw [dictInsert_pair, if_neg hne2]
                exact attachDelta_val d2 d1 [(d2, n2), (d1, n1)] n2 n1
                  (by rw [dictLookup_cons, if_pos rfl])
                  (by rw [dictLookup_cons, if_neg hne2, dictLookup_pair, if_pos rfl])
              · rw [hδeq, ← hm1e, ← hm2e]
                show (n1.word_count : Int) - (n2.word_count : Int) =
                  -((n2.word_count : Int) - (n1.word_count : Int))
                omega
  · -- dates has three or more entries
    simp only [analyze_agencies_over_time] at he
    rw [dictLookup_map_nodelta] at he
    cases hrec : dictLookup (buildHistoryLoop d docs af (d1 :: d2 :: d3 :: rest) []) a with
    | none => rw [hrec] at he; exact absurd he (by simp)
    | some recs =>
      rw [hrec] at he
      injection he with he2
      subst he2
      exact ⟨by simp, fun x y m1 m2 δ hdates _ _ _ => absurd hdates (by simp),
        fun x y δ hdates _ => absurd hdates (by simp)⟩

set_option maxRecDepth 1000000 in
/-- Witness for C5_delta_characterisation at the `c5` world: word counts 2
and 3 on the two dates give a word-count delta of 1. -/
theorem C5_witness :
    dictLookup (analyze_agencies_over_time c5D c5Docs ["d1", "d2"] none) "A" =
      some c5entry ∧
    (c5entry.delta.isSome ↔ ∃ d1 d2, (["d1", "d2"] : List String) = [d1, d2] ∧
      (dictLookup c5entry.records d1).isSome ∧
      (dictLookup c5entry.records d2).isSome) ∧
    c5entry.delta = some ⟨1⟩ :=
  ⟨by decide,
    (C5_delta_characterisation c5D c5Docs ["d1", "d2"] none "A" c5entry (by decide)).1,
    by decide⟩

/-! ## Document Parser (sectioned mode) lemmas -/

theorem mem_keys_dictInsert {α : Type} (d : List (String × α)) (k : String) (v : α)
    (k2 : String) :
    k2 ∈ (dictInsert d k v).map Prod.fst ↔ k2 ∈ d.map Prod.fst ∨ k2 = k := by
  rw [keys_dictInsert]
  by_cases hc : dictContains d k
  · rw [if_pos hc]
    constructor
    · exact Or.inl
    · rintro (h | rfl)
      · exact h
      · exact dictContains_iff.mp hc
  · rw [if_neg hc]
    simp

theorem sectionsLoop_some_nodup (tcs : Option (List String)) :
    ∀ (chs : List XmlNode) (acc m : List (String × String)),
      sectionsLoop tcs chs acc = some m →
      (acc.map Prod.fst).Nodup → (m.map Prod.fst).Nodup := by
  intro chs
  induction chs with
  | nil =>
    intro acc m hm hacc
    injection hm with hm2
    exact hm2 ▸ hacc
  | cons ch rest ih =>
    intro acc m hm hacc
    by_cases hmatch : chapterMatches tcs ch
    · rw [sectionsLoop, if_pos hmatch] at hm
      cases hkey : chapterKey ch with
      | none => rw [hkey] at hm; exact absurd hm (by simp)
      | some k0 =>
        rw [hkey] at hm
        exact ih _ m hm (nodupKeys_dictInsert _ _ hacc)
    · rw [sectionsLoop, if_neg hmatch] at hm
      exact ih _ m hm hacc

theorem sectionsLoop_keys (tcs : Option (List String)) :
    ∀ (chs : List XmlNode) (acc m : List (String × String)),
      sectionsLoop tcs chs acc = some m →
      ∀ k, k ∈ m.map Prod.fst ↔
        (k ∈ acc.map Prod.fst ∨
          ∃ ch ∈ chs, chapterMatches tcs ch ∧ chapterKey ch = some k) := by
  intro chs
  induction chs with
  | nil =>
    intro acc m hm k
    injection hm with hm2
    subst hm2
    simp
  | cons ch rest ih =>
    intro acc m hm k
    by_cases hmatch : chapterMatches tcs ch
    · rw [sectionsLoop, if_pos hmatch] at hm
      cases hkey : chapterKey ch with
      | none => rw [hkey] at hm; exact absurd hm (by simp)
      | some k0 =>
        rw [hkey] at hm
        rw [ih _ m hm k, mem_keys_dictInsert]
        constructor
        · rintro ((h | rfl) | ⟨c, hc, hc2, hc3⟩)
          · exact Or.inl h
          · exact Or.inr ⟨ch, List.mem_cons_self ch rest, hmatch, hkey⟩
          · exact Or.inr ⟨c, List.mem_cons_of_mem ch hc, hc2, hc3⟩
        · rintro (h | ⟨c, hc, hc2, hc3⟩)
          · exact Or.inl (Or.inl h)
          · rcases List.mem_cons.mp hc with rfl | hc4
            · rw [hkey] at hc3
              injection hc3 with hc5
              exact Or.inl (Or.inr hc5.symm)
            · exact Or.inr ⟨c, hc4, hc2, hc3⟩
    · rw [sectionsLoop, if_neg hmatch] at hm
      rw [ih _ m hm k]
      constructor
      · rintro (h | ⟨c, hc, hc2, hc3⟩)
        · exact Or.inl h
        · exact Or.inr ⟨c, List.mem_cons_of_mem ch hc, hc2, hc3⟩
      · rintro (h | ⟨c, hc, hc2, hc3⟩)
        · exact Or.inl h
        · rcases List.mem_cons.mp hc with rfl | hc4
          · exact absurd hc2 hmatch
          · exact Or.inr ⟨c, hc4, hc2, hc3⟩

theorem sectionsLoop_entries (tcs : Option (List String)) :
    ∀ (chs : List XmlNode) (acc m : List (String × String)),
      sectionsLoop tcs chs acc = some m →
      ∀ p, p ∈ m → p ∈ acc ∨
        ∃ ch ∈ chs, chapterMatches tcs ch ∧
          chapterKey ch = some p.1 ∧ subtreeText ch = p.2 := by
  intro chs
  induction chs with
  | nil =>
    intro acc m hm p hp
    injection hm with hm2
    subst hm2
    exact Or.inl hp
  | cons ch rest ih =>
    intro acc m hm p hp
    by_cases hmatch : chapterMatches tcs ch
    · rw [sectionsLoop, if_pos hmatch] at hm
      cases hkey : chapterKey ch with
      | none => rw [hkey] at hm; exact absurd hm (by simp)
      | some k0 =>
        rw [hkey] at hm
        rcases ih _ m hm p hp with h | ⟨c, hc, hc2, hc3, hc4⟩
        · rcases mem_dictInsert h with rfl | ⟨h2, _⟩
          · exact Or.inr ⟨ch, List.mem_cons_self ch rest, hmatch, hkey, rfl⟩
          · exact Or.inl h2
        · exact Or.inr ⟨c, List.mem_cons_of_mem ch hc, hc2, hc3, hc4⟩
    · rw [sectionsLoop, if_neg hmatch] at hm
      rcases ih _ m hm p hp with h | ⟨c, hc, hc2, hc3, hc4⟩
      · exact Or.inl h
      · exact Or.inr ⟨c, List.mem_cons_of_mem ch hc, hc2, hc3, hc4⟩

theorem sectionsLoop_length (tcs : Option (List String)) :
    ∀ (chs : List XmlNode) (acc m : List (String × String)),
      sectionsLoop tcs chs acc = some m →
      ((chs.filter (chapterMatches tcs)).filterMap chapterKey).Nodup →
      (∀ k, k ∈ (chs.filter (chapterMatches tcs)).filterMap chapterKey →
        k ∉ acc.map Prod.fst) →
      m.length = acc.length + (chs.filter (chapterMatches tcs)).length := by
  intro chs
  induction chs with
  | nil =>
    intro acc m hm _ _
    injection hm with hm2
    subst hm2
    simp
  | cons ch rest ih =>
    intro acc m hm hnd hdisj
    by_cases hmatch : chapterMatches tcs ch
    · rw [sectionsLoop, if_pos hmatch] at hm
      cases hkey : chapterKey ch with
      | none => rw [hkey] at hm; exact absurd hm (by simp)
      | some k0 =>
        rw [hkey] at hm
        rw [List.filter_cons, if_pos hmatch, List.filterMap_cons, hkey] at hnd hdisj
        simp only [List.nodup_cons] at hnd
        have hk0acc : k0 ∉ acc.map Prod.fst :=
          hdisj k0 (List.mem_cons_self k0 _)
        have hlen : (dictInsert acc k0 (subtreeText ch)).length = acc.length + 1 := by
          rw [length_dictInsert]
          have : dictContains acc k0 = false := by
            cases hcc : dictContains acc k0 with
            | false => rfl
            | true => exact absurd (dictContains_iff.mp hcc) hk0acc
          rw [this]
          rfl
        have hdisj2 : ∀ k, k ∈ (rest.filter (chapterMatches tcs)).filterMap chapterKey →
            k ∉ (dictInsert acc k0 (subtreeText ch)).map Prod.fst := by
          intro k hk hmem
          rcases (mem_keys_dictInsert acc k0 (subtreeText ch) k).mp hmem with h | rfl
          · exact hdisj k (List.mem_cons_of_mem k0 hk) h
          · exact hnd.1 hk
        have := ih _ m hm hnd.2 hdisj2
        rw [this, hlen, List.filter_cons, if_pos hmatch]
        simp only [List.length_cons]
        omega
    · rw [sectionsLoop, if_neg hmatch] at hm
      rw [List.filter_cons, if_neg hmatch] at hnd hdisj ⊢
      exact ih _ m hm hnd hdisj

/-- C4 is false on the code: in a document whose two chapters (codes `I` and
`II`) share one heading, sectioned mode returns a single entry — the second
chapter's assignment overwrites the first — not one entry per matching
Chapter Node. -/
theorem C4_counterexample :
    (parse_title_xml_sections c4Doc none).map List.length = some 1 ∧
    ((chaptersOf c4Doc).filter (chapterMatches none)).length = 2 ∧
    (parse_title_xml_sections c4Doc none).map List.length ≠
      some ((chaptersOf c4Doc).filter (chapterMatches none)).length :=
  ⟨by decide, by decide, by decide⟩

/-- C4 (amended): for every document and filter on which sectioned mode
succeeds, the mapping has pairwise-distinct keys; its keys are exactly the
heading keys of the chapters matching the filter case-insensitively (the
stripped heading text, or the synthesized label `Chapter <code>` with the code
uppercased when the chapter has no heading node); every entry's value is the
flat text of a matching chapter with that key; and when the matching chapters
resolve to pairwise-distinct keys the mapping has exactly one entry per
matching Chapter Node — chapters sharing a key collapse into one entry. -/
theorem C4_sectioned_mapping (root : XmlNode) (tcs : Option (List String))
    (m : List (String × String))
    (hm : parse_title_xml_sections root tcs = some m) :
    (m.map Prod.fst).Nodup ∧
    (∀ k, k ∈ m.map Prod.fst ↔
      ∃ ch ∈ matchingChapters root tcs, chapterKey ch = some k) ∧
    (∀ p ∈ m, ∃ ch ∈ matchingChapters root tcs,
      chapterKey ch = some p.1 ∧ subtreeText ch = p.2) ∧
    (((matchingChapters root tcs).filterMap chapterKey).Nodup →
      m.length = (matchingChapters root tcs).length) := by
  rw [parse_title_xml_sections] at hm
  refine ⟨?_, ?_, ?_, ?_⟩
  · exact sectionsLoop_some_nodup tcs _ [] m hm (by simp)
  · intro k
    rw [sectionsLoop_keys tcs _ [] m hm k]
    simp only [List.map_nil, List.not_mem_nil, false_or]
    constructor
    · rintro ⟨c, hc, h2, h3⟩
      exact ⟨c, List.mem_filter.mpr ⟨hc, h2⟩, h3⟩
    · rintro ⟨c, hc, h3⟩
      obtain ⟨hc1, hc2⟩ := List.mem_filter.mp hc
      exact ⟨c, hc1, hc2, h3⟩
  · intro p hp
    rcases sectionsLoop_entries tcs _ [] m hm p hp with h | ⟨c, hc, h2, h3, h4⟩
    · exact absurd h (List.not_mem_nil p)
    · exact ⟨c, List.mem_filter.mpr ⟨hc, h2⟩, h3, h4⟩
  · intro hnd
    have := sectionsLoop_length tcs _ [] m hm hnd (by simp)
    simpa using this

/-- Witness for C4_sectioned_mapping: a document with a headed chapter `I` and
a headless chapter coded `ii` — two entries, distinct keys, the second key
synthesized as `Chapter II`. -/
theorem C4_witness :
    parse_title_xml_sections c4DocW none = some c4secs ∧
    (c4secs.map Prod.fst).Nodup ∧
    c4secs.length = (matchingChapters c4DocW none).length ∧
    c4secs.map Prod.fst = ["Chapter I-General", "Chapter II"] :=
  ⟨by decide,
    (C4_sectioned_mapping c4DocW none c4secs (by decide)).1,
    (C4_sectioned_mapping c4DocW none c4secs (by decide)).2.2.2 (by decide),
    by decide⟩

end ECFR
